import Mathlib

/-
Verification of the query interpretation engine of simple_ai_chat.py
(intent classification, column and value extraction, table combination and
the per-intent analytical handlers).

The embedding is shallow: a pandas DataFrame becomes the column-major
structure DF below; cell values are missing (none) or a Value (rational
number, text, or date); pandas dtypes become an explicit per-column tag.
String scanning (substring tests, the word-boundary regular patterns built
with re.escape and backslash-b, tokenization, numeric-literal extraction)
is modelled character by character over ASCII, matching the behaviour of
the re module on the inputs the program builds.  Formatted response
strings are modelled by structured payloads carrying exactly the
information content the formatter renders (entity names, counts, means,
percentages as exact rationals before rounding to one or two decimal
places); the bullet and emoji markup around those numbers is presentation
only.  Python object identity and in-place DataFrame mutation are modelled
with an explicit store (a list of DF values) and store indices: df.copy()
and pd.concat allocate a fresh cell, the one in-place column assignment of
the source (the Trend handler coercing the date column) becomes a store
update.
-/

/-! ## Character and string primitives -/

/-- Word character in the sense of the regex backslash-w (ASCII model). -/
def wordCharB (c : Char) : Bool := c.isAlphanum || c == '_'

/-- Python whitespace stripped by str.strip (ASCII model). -/
def pyWsB (c : Char) : Bool :=
  c == ' ' || c == '\t' || c == '\n' || c == '\r' || c == '\x0b' || c == '\x0c'

/-- Is the first list a prefix of the second. -/
def prefixEq : List Char → List Char → Bool
  | [], _ => true
  | _ :: _, [] => false
  | n :: ns, h :: hs => n == h && prefixEq ns hs

/-- Substring containment over character lists: needle occurs somewhere in hay. -/
def containsL (needle : List Char) : List Char → Bool
  | [] => prefixEq needle []
  | c :: t => prefixEq needle (c :: t) || containsL needle t

/-- The Python test `needle in hay` on strings. -/
def strContains (hay needle : String) : Bool := containsL needle.data hay.data

/-- Python str.lower (ASCII model). -/
def pyLower (s : String) : String := ⟨s.data.map Char.toLower⟩

/-- Python str.strip with no arguments. -/
def pyStrip (s : String) : String :=
  ⟨((s.data.dropWhile pyWsB).reverse.dropWhile pyWsB).reverse⟩

/-- Whether the character at index i of the list is a word character
(out of range counts as non-word, as at the ends of the subject string). -/
def wordAtB (h : List Char) (i : Nat) : Bool :=
  match h.get? i with
  | some c => wordCharB c
  | none => false

/-- The regex backslash-b: a word boundary between positions i-1 and i. -/
def boundaryB (h : List Char) (i : Nat) : Bool :=
  (match i with | 0 => false | j + 1 => wordAtB h j) != wordAtB h i

/-- Does the pattern occur literally at index i of the subject. -/
def sliceEqAt (h : List Char) (i : Nat) (p : List Char) : Bool :=
  prefixEq p (h.drop i)

/-- The source builds patterns of the form backslash-b, re.escape(key),
backslash-b and calls re.search: the key must occur with a word boundary at
both ends. -/
def reWordSearch (pat hay : String) : Bool :=
  let p := pat.data
  let h := hay.data
  (List.range (h.length + 1)).any
    (fun i => sliceEqAt h i p && boundaryB h i && boundaryB h (i + p.length))

/-! ## Intent classifier: detect_question_type -/

def count_words : List String := ["how many", "count", "total", "number of", "quantity"]

def stats_words : List String :=
  ["average", "mean", "median", "min", "max", "sum", "statistics", "stats", "avg"]

def search_words : List String := ["find", "search", "show", "display", "get"]

def filter_words : List String := ["where", "which", "what", "who", "when", "with", "having"]

def compare_words : List String :=
  ["compare", "difference", "vs", "versus", "more than", "less than", "greater", "smaller"]

def trend_words : List String :=
  ["trend", "over time", "recent", "latest", "oldest", "newest", "earliest", "last"]

def value_words : List String := ["value", "what is", "tell me", "give me"]

def list_words : List String := ["list", "all", "every", "each"]

def summary_words : List String := ["summary", "overview", "tell me about", "describe"]

/-- detect_question_type: first keyword set (in the fixed priority order)
with a substring match against the query wins; otherwise general. -/
def detect_question_type (user_input : String) : String :=
  if count_words.any (fun w => strContains user_input w) then "count"
  else if stats_words.any (fun w => strContains user_input w) then "statistics"
  else if search_words.any (fun w => strContains user_input w) then "search"
  else if filter_words.any (fun w => strContains user_input w) then "filter"
  else if compare_words.any (fun w => strContains user_input w) then "comparison"
  else if trend_words.any (fun w => strContains user_input w) then "trend"
  else if value_words.any (fun w => strContains user_input w) then "value"
  else if list_words.any (fun w => strContains user_input w) then "list"
  else if summary_words.any (fun w => strContains user_input w) then "summary"
  else "general"

/-! ## Reference extractors -/

/-- The col_map dictionary of analyze_and_answer: keys are lower-cased and
stripped column names, later duplicate keys overwrite the stored value but
keep the key position (Python dict semantics). -/
def colMapPairs (columns : List String) : List (String × String) :=
  columns.foldl
    (fun acc col =>
      let k := pyStrip (pyLower col)
      if acc.any (fun pr => pr.1 == k) then
        acc.map (fun pr => if pr.1 == k then (k, col) else pr)
      else acc ++ [(k, col)])
    []

/-- The strict whole-word column extractor of analyze_and_answer
(mentioned_columns): a column is referenced when its lower-cased stripped
name occurs in the query bounded by word boundaries. -/
def strictMentioned (user_input : String) (columns : List String) : List String :=
  ((colMapPairs columns).filter (fun pr => reWordSearch pr.1 user_input)).map (fun pr => pr.2)

/-- The permissive extractor of handle_intelligent_fallback: plain
case-insensitive substring containment. -/
def fallbackMentioned (user_input : String) (columns : List String) : List String :=
  columns.filter (fun col => strContains (pyLower user_input) (pyLower col))

example : detect_question_type "how many incidents" = "count" := by decide
example : detect_question_type "average amount" = "statistics" := by decide
example : strictMentioned "statuss" ["status"] = [] := by decide
example : fallbackMentioned "statuss" ["status"] = ["status"] := by decide

/-- C1: any query containing one of the count keywords is classified with
intent count, whatever other keywords it contains, because the count test
is the first branch of the classifier. -/
theorem C1_count_priority (q : String)
    (h : count_words.any (fun w => strContains q w) = true) :
    detect_question_type q = "count" := by
  simp [detect_question_type, h]

/-- C1 witness: a query containing a count keyword together with keywords
of several later categories is still classified count. -/
theorem C1_count_priority_witness :
    count_words.any (fun w => strContains "how many records show the average trend" w) = true
      ∧ detect_question_type "how many records show the average trend" = "count" :=
  ⟨by decide, C1_count_priority "how many records show the average trend" (by decide)⟩

/-- C5: the strict whole-word extractor does not leak on substrings: for a
column named status, the query statuss references nothing, while the
permissive substring extractor used by the general fallback does match. -/
theorem C5_word_boundary :
    ("status" ∉ strictMentioned "statuss" ["status"])
      ∧ ("status" ∈ fallbackMentioned "statuss" ["status"]) := by
  constructor
  · decide
  · decide

/-! ## Data model: DataFrames -/

/-- A cell value: numeric (pandas int64/float64 modelled as an exact
rational), text, or a date (a pandas Timestamp at day resolution, as
produced by pd.to_datetime on the date strings this program handles). -/
inductive Value where
  | num (x : ℚ)
  | str (s : String)
  | date (y m d : Nat)
deriving DecidableEq

/-- The pandas dtype of a column as the source observes it: object for
text, a numeric dtype (int64/float64), or datetime64. -/
inductive Dtype where
  | object
  | numeric
  | datetime
deriving DecidableEq

/-- A named column: a dtype tag and positionally aligned cells, none being
NaN/NaT/None. -/
structure Col where
  name : String
  dtype : Dtype
  cells : List (Option Value)
deriving DecidableEq

/-- A DataFrame: an ordered collection of named columns with a default
RangeIndex 0..n-1. -/
structure DF where
  cols : List Col
deriving DecidableEq

def DF.nrows (df : DF) : Nat :=
  match df.cols with
  | [] => 0
  | c :: _ => c.cells.length

def DF.colNames (df : DF) : List String := df.cols.map (fun c => c.name)

/-- df[name]: the first column carrying the name. -/
def DF.findCol (df : DF) (nm : String) : Option Col :=
  df.cols.find? (fun c => c.name == nm)

/-- pandas df.empty: an axis of length zero. -/
def DF.pdEmpty (df : DF) : Bool := df.cols.isEmpty || df.nrows == 0

/-- Row i of the DataFrame, one entry per column. -/
def DF.getRow (df : DF) (i : Nat) : List (Option Value) :=
  df.cols.map (fun c => c.cells.getD i none)

/-- dropna on one column: the non-null cells in order. -/
def nonNull (c : Col) : List Value := c.cells.filterMap id

def valNum : Value → Option ℚ
  | .num x => some x
  | _ => none

/-- The numeric content of a column (what dropna yields on a numeric
column). -/
def numCells (c : Col) : List ℚ := (nonNull c).filterMap valNum

def nodupB : List String → Bool
  | [] => true
  | x :: xs => !(xs.contains x) && nodupB xs

/-- Cells of a column agree with its dtype tag. -/
def typeOKB (c : Col) : Bool :=
  match c.dtype with
  | .numeric => (nonNull c).all (fun v => (valNum v).isSome)
  | .datetime => (nonNull c).all (fun v => match v with | .date _ _ _ => true | _ => false)
  | .object => true

/-- Well-formed DataFrame: equal column lengths, distinct column names,
dtype tags matching the cells. -/
def DF.wfB (df : DF) : Bool :=
  df.cols.all (fun c => c.cells.length == df.nrows)
    && nodupB df.colNames
    && df.cols.all typeOKB

/-! ## value_counts and distinct values -/

/-- pandas value_counts before its descending sort: each distinct value of
the list in first-seen order with its multiplicity.  Fuel-structured so
that it reduces definitionally. -/
def vcAux {α : Type} [DecidableEq α] : Nat → List α → List (α × Nat)
  | 0, _ => []
  | _, [] => []
  | fuel + 1, v :: rest =>
      (v, 1 + rest.countP (fun w => decide (w = v)))
        :: vcAux fuel (rest.filter (fun w => !(decide (w = v))))

/-- pandas value_counts: multiplicities sorted descending (stable). -/
def sortedVC (l : List Value) : List (Value × Nat) :=
  List.insertionSort (fun a b => b.2 ≤ a.2) (vcAux l.length l)

/-- pandas nunique on the non-null values. -/
def nuniqueL (l : List Value) : Nat := (vcAux l.length l).length

/-- pandas Series.unique after dropna: distinct values, first-seen order. -/
def distinctL (l : List Value) : List Value := (vcAux l.length l).map (fun p => p.1)

/-- One line of a value-count breakdown: the value, its count, and the
percentage printed next to it (exact, before rounding to one decimal). -/
structure BreakdownEntry where
  val : Value
  cnt : Nat
  pct : ℚ
deriving DecidableEq

/-- A full value-count breakdown of the non-null values of a column, each
count shown as a percentage of the given total record count. -/
def entriesOfAll (l : List Value) (total : Nat) : List BreakdownEntry :=
  (sortedVC l).map (fun p => ⟨p.1, p.2, (p.2 : ℚ) / (total : ℚ) * 100⟩)

/-- A value-count breakdown capped at the k most frequent values
(value_counts().head(k)). -/
def entriesOfTop (k : Nat) (l : List Value) (total : Nat) : List BreakdownEntry :=
  ((sortedVC l).take k).map (fun p => ⟨p.1, p.2, (p.2 : ℚ) / (total : ℚ) * 100⟩)

/-! ## Sums over value counts -/

theorem countP_add_filter_not_length {α : Type} [DecidableEq α] (v : α) :
    ∀ l : List α,
      l.countP (fun w => decide (w = v)) + (l.filter (fun w => !(decide (w = v)))).length
        = l.length := by
  intro l
  induction l with
  | nil => rfl
  | cons a t ih =>
    rw [List.countP_cons, List.filter_cons]
    by_cases hav : a = v
    · rw [if_pos (show decide (a = v) = true by simp [hav]),
        if_neg (show ¬ ((!decide (a = v)) = true) by simp [hav])]
      simp only [List.length_cons]
      omega
    · rw [if_pos (show (!decide (a = v)) = true by simp [hav]),
        if_neg (show ¬ (decide (a = v) = true) by simp [hav])]
      simp only [List.length_cons]
      omega

theorem vcAux_sum_counts {α : Type} [DecidableEq α] :
    ∀ (fuel : Nat) (l : List α), l.length ≤ fuel →
      ((vcAux fuel l).map (fun p => p.2)).sum = l.length := by
  intro fuel
  induction fuel with
  | zero =>
    intro l hl
    have : l = [] := List.length_eq_zero.mp (Nat.le_zero.mp hl)
    subst this
    rfl
  | succ n ih =>
    intro l hl
    match l with
    | [] => rfl
    | v :: rest =>
      simp only [vcAux, List.map_cons, List.sum_cons]
      have hlen : (rest.filter (fun w => !(decide (w = v)))).length ≤ n := by
        have h1 : (rest.filter (fun w => !(decide (w = v)))).length ≤ rest.length :=
          List.length_filter_le _ _
        have h2 : rest.length ≤ n := by
          simpa using Nat.succ_le_succ_iff.mp hl
        omega
      rw [ih _ hlen]
      have hsplit := countP_add_filter_not_length v rest
      simp only [List.length_cons]
      omega

theorem sortedVC_sum_counts (l : List Value) :
    ((sortedVC l).map (fun p => p.2)).sum = l.length := by
  have hperm : List.Perm (sortedVC l) (vcAux l.length l) :=
    List.perm_insertionSort _ _
  have := (hperm.map (fun p => p.2)).sum_eq
  rw [this]
  exact vcAux_sum_counts l.length l le_rfl

theorem pct_map_sum (ps : List (Value × Nat)) (t : ℚ) :
    ((ps.map (fun p => (p.2 : ℚ) / t * 100)).sum)
      = (((ps.map (fun p => p.2)).sum : Nat) : ℚ) / t * 100 := by
  induction ps with
  | nil => simp
  | cons a l ih =>
    simp only [List.map_cons, List.sum_cons, ih]
    push_cast
    ring

/-- The percentages of a full breakdown sum to 100 times the fraction of
records that are non-null in the column. -/
theorem entriesOfAll_pct_sum (l : List Value) (total : Nat) :
    ((entriesOfAll l total).map (fun e => e.pct)).sum
      = ((l.length : ℚ)) / (total : ℚ) * 100 := by
  unfold entriesOfAll
  rw [List.map_map]
  have : ((fun e : BreakdownEntry => e.pct) ∘ fun p : Value × Nat =>
      (⟨p.1, p.2, (p.2 : ℚ) / (total : ℚ) * 100⟩ : BreakdownEntry))
      = fun p : Value × Nat => (p.2 : ℚ) / (total : ℚ) * 100 := rfl
  rw [this, pct_map_sum, sortedVC_sum_counts]

/-! ## Statistics: pandas describe over the non-null values -/

def qsortAsc (l : List ℚ) : List ℚ := List.insertionSort (fun a b => a ≤ b) l

/-- The 50 percent entry of pandas describe: middle element of the sorted
data, or the mean of the two middle elements. -/
def qmedian (l : List ℚ) : ℚ :=
  let s := qsortAsc l
  let n := s.length
  if n % 2 == 1 then s.getD (n / 2) 0
  else (s.getD (n / 2 - 1) 0 + s.getD (n / 2) 0) / 2

def qminL : List ℚ → ℚ
  | [] => 0
  | x :: xs => xs.foldl min x

def qmaxL : List ℚ → ℚ
  | [] => 0
  | x :: xs => xs.foldl max x

/-- The numbers the Statistics handler prints for one column: count, mean,
median, min, max, and the sample variance whose square root is the printed
standard deviation (pandas std is NaN on a single sample, hence omitted,
modelled here by none).  All are computed over non-null values only. -/
structure StatRec where
  count : Nat
  mean : ℚ
  median : ℚ
  smin : ℚ
  smax : ℚ
  varS : Option ℚ
deriving DecidableEq

/-- pandas describe of a series of non-null numbers (none when empty,
matching the guard len(col_data) > 0 in the source). -/
def describeStats (l : List ℚ) : Option StatRec :=
  match l with
  | [] => none
  | _ :: _ =>
      some
        { count := l.length
          mean := l.sum / (l.length : ℚ)
          median := qmedian l
          smin := qminL l
          smax := qmaxL l
          varS :=
            if l.length ≤ 1 then none
            else some
              ((l.map (fun x => (x - l.sum / (l.length : ℚ)) ^ 2)).sum
                / (((l.length - 1 : Nat)) : ℚ)) }

theorem foldl_min_le (xs : List ℚ) :
    ∀ a : ℚ, xs.foldl min a ≤ a ∧ ∀ x ∈ xs, xs.foldl min a ≤ x := by
  induction xs with
  | nil => intro a; exact ⟨le_refl a, by intro x hx; cases hx⟩
  | cons b bs ih =>
    intro a
    have h := ih (min a b)
    constructor
    · exact le_trans h.1 (min_le_left a b)
    · intro x hx
      rcases List.mem_cons.mp hx with hxb | hxs
      · subst hxb
        exact le_trans h.1 (min_le_right a x)
      · exact h.2 x hxs

theorem le_foldl_max (xs : List ℚ) :
    ∀ a : ℚ, a ≤ xs.foldl max a ∧ ∀ x ∈ xs, x ≤ xs.foldl max a := by
  induction xs with
  | nil => intro a; exact ⟨le_refl a, by intro x hx; cases hx⟩
  | cons b bs ih =>
    intro a
    have h := ih (max a b)
    constructor
    · exact le_trans (le_max_left a b) h.1
    · intro x hx
      rcases List.mem_cons.mp hx with hxb | hxs
      · subst hxb
        exact le_trans (le_max_right a x) h.1
      · exact h.2 x hxs

theorem qminL_le_mem (l : List ℚ) (x : ℚ) (hx : x ∈ l) : qminL l ≤ x := by
  match l with
  | [] => cases hx
  | a :: as =>
    rcases List.mem_cons.mp hx with h | h
    · subst h; exact (foldl_min_le as x).1
    · exact (foldl_min_le as a).2 x h

theorem mem_le_qmaxL (l : List ℚ) (x : ℚ) (hx : x ∈ l) : x ≤ qmaxL l := by
  match l with
  | [] => cases hx
  | a :: as =>
    rcases List.mem_cons.mp hx with h | h
    · subst h; exact (le_foldl_max as x).1
    · exact (le_foldl_max as a).2 x h

theorem mean_between (l : List ℚ) (hne : l ≠ []) :
    qminL l ≤ l.sum / (l.length : ℚ) ∧ l.sum / (l.length : ℚ) ≤ qmaxL l := by
  have hlen : 0 < l.length := List.length_pos.mpr hne
  have hlenQ : (0 : ℚ) < (l.length : ℚ) := by exact_mod_cast hlen
  constructor
  · have hub : ∀ x ∈ l, qminL l ≤ x := fun x hx => qminL_le_mem l x hx
    have hs : l.length • qminL l ≤ l.sum := List.card_nsmul_le_sum l _ hub
    rw [nsmul_eq_mul] at hs
    rw [le_div_iff₀ hlenQ]
    calc qminL l * (l.length : ℚ) = (l.length : ℚ) * qminL l := by ring
      _ ≤ l.sum := hs
  · have hub : ∀ x ∈ l, x ≤ qmaxL l := fun x hx => mem_le_qmaxL l x hx
    have hs : l.sum ≤ l.length • qmaxL l := List.sum_le_card_nsmul l _ hub
    rw [nsmul_eq_mul] at hs
    rw [div_le_iff₀ hlenQ]
    calc l.sum ≤ (l.length : ℚ) * qmaxL l := hs
      _ = qmaxL l * (l.length : ℚ) := by ring

theorem describeStats_spec (l : List ℚ) (r : StatRec)
    (h : describeStats l = some r) :
    r.smin ≤ r.mean ∧ r.mean ≤ r.smax ∧ r.count = l.length := by
  match l with
  | [] => exact absurd h (by simp [describeStats])
  | a :: as =>
    have h2 := Option.some.inj h
    subst h2
    have hmb := mean_between (a :: as) (by simp)
    exact ⟨hmb.1, hmb.2, rfl⟩

/-! ## Shared vocabulary and filter primitives -/

/-- The fixed status-like value vocabulary shared by the Count and Filter
handlers. -/
def statusVocab : List String :=
  ["critical", "high", "medium", "low", "open", "closed", "resolved", "pending",
   "active", "inactive"]

/-- Python str() of a cell value as the source applies it through
astype(str).  Text cells are the text itself; the rendering of numeric and
date cells is a placeholder faithful enough for this program because the
strings it is compared against (the status vocabulary, search terms that
are alphabetic words) never equal a numeral or timestamp rendering. -/
def valStr : Value → String
  | .str s => s
  | .num x => toString x.num ++ (if x.den == 1 then "" else "/" ++ toString x.den)
  | .date y m d => toString y ++ "-" ++ toString m ++ "-" ++ toString d

/-- One filter constraint as detected and reported by the Filter handler
(the threshold kept as an exact rational). -/
inductive Filt where
  | catEq (col : String) (val : String)
  | numGt (col : String) (t : ℚ)
  | numLt (col : String) (t : ℚ)
deriving DecidableEq

/-- The boolean mask a constraint induces on the full table, as the set of
row positions where it holds; null cells never match, numeric comparisons
hold only on numeric cells (NaN compares false in pandas). -/
def rowsOfF (df : DF) (f : Filt) : List Nat :=
  match f with
  | .catEq col val =>
      match df.findCol col with
      | none => []
      | some c =>
          (List.range c.cells.length).filter
            (fun i =>
              match c.cells.getD i none with
              | some v => pyStrip (pyLower (valStr v)) == val
              | none => false)
  | .numGt col t =>
      match df.findCol col with
      | none => []
      | some c =>
          (List.range c.cells.length).filter
            (fun i =>
              match c.cells.getD i none with
              | some (.num x) => decide (t < x)
              | _ => false)
  | .numLt col t =>
      match df.findCol col with
      | none => []
      | some c =>
          (List.range c.cells.length).filter
            (fun i =>
              match c.cells.getD i none with
              | some (.num x) => decide (x < t)
              | _ => false)

/-- Label-aligned boolean indexing of an already filtered frame by a mask
computed on the full frame: keep the labels on which the mask is true. -/
def interRows (kept mask : List Nat) : List Nat :=
  kept.filter (fun i => mask.contains i)

/-- The inner loop shared by the Count value-mention pass and the Filter
categorical pass: walk the status vocabulary and take the first value that
occurs in the query as a whole word and whose mask on the column is
non-empty (the loops break only after a successful application; values
that match the query but no row are passed over). -/
def firstCatVal (q : String) (df : DF) (col : String) : List String → Option (String × List Nat)
  | [] => none
  | v :: vs =>
      if reWordSearch v q then
        let rws := rowsOfF df (.catEq col v)
        if rws.isEmpty then firstCatVal q df col vs else some (v, rws)
      else firstCatVal q df col vs

def digitsToNat (l : List Char) : Nat :=
  l.foldl (fun a c => a * 10 + (c.toNat - '0'.toNat)) 0

def firstNumberGo : List Char → Option ℚ
  | [] => none
  | c :: t =>
      if c.isDigit then
        let ds := (c :: t).takeWhile Char.isDigit
        let rest := (c :: t).dropWhile Char.isDigit
        match rest with
        | '.' :: r2 =>
            let fs := r2.takeWhile Char.isDigit
            some ((digitsToNat ds : ℚ) + (digitsToNat fs : ℚ) / (10 : ℚ) ^ fs.length)
        | _ => some ((digitsToNat ds : ℚ))
      else firstNumberGo t

/-- re.findall of the pattern digits, optional dot, digits, converted to
float: the first numeric literal of the query. -/
def firstNumber (s : String) : Option ℚ := firstNumberGo s.data

example : (firstNumber "more than 12.5 things").isSome = true := by decide
example : firstNumber "no digits" = none := by decide

/-! ## Count handler -/

/-- One block of the mentioned-column section of the Count response. -/
inductive CountItem where
  | uniqueCount (col : String) (n : Nat)
  | breakdown (col : String) (entries : List BreakdownEntry)
deriving DecidableEq

/-- The general-count fallback section: total records plus capped
distributions of up to seven categorical columns. -/
structure CountFallback where
  total : Nat
  dists : List (String × List BreakdownEntry)
deriving DecidableEq

/-- Information content of the Count response: the per-mentioned-column
blocks, the column = value matches from the status vocabulary, and the
fallback section exactly when the first two are empty (the source tests
whether the accumulated response string is still empty).  The data-source
attribution line is presentation only. -/
structure CountResp where
  mentionedItems : List CountItem
  valMatches : List (String × String × Nat)
  fallback : Option CountFallback
deriving DecidableEq

/-- handle_comprehensive_count of the source, lines 341 to 434. -/
def handle_comprehensive_count (q : String) (df : DF) (mentioned : List String) : CountResp :=
  let total := df.nrows
  let mi := mentioned.filterMap (fun nm =>
    (df.findCol nm).bind (fun c =>
        if strContains q "unique" || strContains q "different" then
          some (CountItem.uniqueCount nm (nuniqueL (nonNull c)))
        else
          let nn := nonNull c
          if nn.isEmpty then none
          else if nuniqueL nn ≤ 20 then
            some (CountItem.breakdown nm (entriesOfAll nn total))
          else none))
  let vms := df.colNames.filterMap (fun col =>
    if reWordSearch (pyLower col) q then
      (firstCatVal q df col statusVocab).map (fun pr => (col, pr.1, pr.2.length))
    else none)
  let fb :=
    if mi.isEmpty && vms.isEmpty then
      let catCols := df.cols.filter
        (fun c => decide (c.dtype = Dtype.object) && nuniqueL (nonNull c) ≤ 20)
      let sortedCats :=
        List.insertionSort (fun a b : Col => (nonNull b).length ≤ (nonNull a).length) catCols
      some
        { total := total
          dists := (sortedCats.take 7).filterMap (fun c =>
            let nn := nonNull c
            if nn.isEmpty then none else some (c.name, entriesOfTop 10 nn total)) }
    else none
  ⟨mi, vms, fb⟩

/-! ## Statistics handler -/

/-- Information content of the Statistics response: the per-column
describe records, or, when the table has no numeric columns at all, the
categorical distribution fallback (top five values per column). -/
structure StatsResp where
  analyzed : List (String × StatRec)
  catFallback : List (String × List BreakdownEntry)
deriving DecidableEq

/-- handle_comprehensive_statistics of the source, lines 437 to 493. -/
def handle_comprehensive_statistics (_q : String) (df : DF) (mentioned : List String) :
    StatsResp :=
  let numericNames := (df.cols.filter (fun c => decide (c.dtype = Dtype.numeric))).map
    (fun c => c.name)
  let fromMentioned := mentioned.filter (fun nm => numericNames.contains nm)
  let analyzedNames := if fromMentioned.isEmpty then numericNames.take 5 else fromMentioned
  if analyzedNames.isEmpty then
    let catCols := df.cols.filter
      (fun c => decide (c.dtype = Dtype.object) && nuniqueL (nonNull c) ≤ 20)
    { analyzed := []
      catFallback := (catCols.take 3).filterMap (fun c =>
        let nn := nonNull c
        if nn.isEmpty then none else some (c.name, entriesOfTop 5 nn df.nrows)) }
  else
    { analyzed := analyzedNames.filterMap (fun nm =>
        (df.findCol nm).bind (fun c => (describeStats (numCells c)).map (fun r => (nm, r))))
      catFallback := [] }

/-! ## Comparison handler -/

/-- Information content of the Comparison response: either full per-value
breakdowns of up to three categorical columns, or min/max/mean of up to
three numeric columns when no categorical column qualifies. -/
inductive CompResp where
  | cat (items : List (String × List BreakdownEntry))
  | nums (items : List (String × Option (ℚ × ℚ × ℚ)))
deriving DecidableEq

/-- min, max and mean of the numeric content of a column (none when there
is nothing to aggregate, where pandas would print NaN). -/
def numAgg (c : Col) : Option (ℚ × ℚ × ℚ) :=
  match numCells c with
  | [] => none
  | l => some (qminL l, qmaxL l, l.sum / (l.length : ℚ))

/-- The categorical columns the Comparison handler may compare: object
dtype with at most 20 distinct values; restricted to the mentioned columns
when any are mentioned. -/
def compSel (df : DF) (mentioned : List String) : List String :=
  let catNames := (df.cols.filter
    (fun c => decide (c.dtype = Dtype.object) && nuniqueL (nonNull c) ≤ 20)).map
    (fun c => c.name)
  if mentioned.isEmpty then catNames
  else mentioned.filter (fun nm => catNames.contains nm)

/-- The per-column full breakdowns of the categorical comparison branch. -/
def compCatItems (df : DF) (sel : List String) : List (String × List BreakdownEntry) :=
  (sel.take 3).filterMap (fun nm =>
    (df.findCol nm).bind (fun c =>
      let nn := nonNull c
      if nn.isEmpty then none else some (nm, entriesOfAll nn df.nrows)))

/-- handle_comprehensive_comparison of the source, lines 708 to 742. -/
def handle_comprehensive_comparison (_q : String) (df : DF) (mentioned : List String) :
    CompResp :=
  if (compSel df mentioned).isEmpty then
    let numericNames := (df.cols.filter (fun c => decide (c.dtype = Dtype.numeric))).map
      (fun c => c.name)
    CompResp.nums ((numericNames.take 3).filterMap (fun nm =>
      (df.findCol nm).map (fun c => (nm, numAgg c))))
  else
    CompResp.cat (compCatItems df (compSel df mentioned))

/-! ## Column lookup and well-formedness lemmas -/

theorem findCol_mem (df : DF) (nm : String) (c : Col) (h : df.findCol nm = some c) :
    c ∈ df.cols ∧ c.name = nm := by
  refine ⟨List.mem_of_find?_eq_some h, ?_⟩
  have := List.find?_some h
  simpa using this

theorem strListContains_iff (l : List String) (s : String) :
    l.contains s = true ↔ s ∈ l := by
  induction l with
  | nil => simp
  | cons a t ih =>
    simp only [List.contains_cons, Bool.or_eq_true, beq_iff_eq, List.mem_cons, ih]

theorem nodupB_name_inj :
    ∀ (cols : List Col), nodupB (cols.map (fun c => c.name)) = true →
      ∀ c1 ∈ cols, ∀ c2 ∈ cols, c1.name = c2.name → c1 = c2 := by
  intro cols
  induction cols with
  | nil => intro _ c1 h1; cases h1
  | cons a t ih =>
    intro hnd c1 h1 c2 h2 hname
    simp only [List.map_cons, nodupB, Bool.and_eq_true] at hnd
    have hnotin : a.name ∉ t.map (fun c => c.name) := by
      intro hmem
      have := (strListContains_iff (t.map (fun c => c.name)) a.name).mpr hmem
      rw [this] at hnd
      simpa using hnd.1
    rcases List.mem_cons.mp h1 with rfl | h1t
    · rcases List.mem_cons.mp h2 with rfl | h2t
      · rfl
      · exact absurd (hname ▸ List.mem_map_of_mem (fun c => c.name) h2t) hnotin
    · rcases List.mem_cons.mp h2 with rfl | h2t
      · exact absurd (hname ▸ List.mem_map_of_mem (fun c => c.name) h1t) hnotin
      · exact ih hnd.2 c1 h1t c2 h2t hname

theorem filterMap_valNum_length (L : List Value)
    (h : ∀ v ∈ L, (valNum v).isSome = true) :
    (L.filterMap valNum).length = L.length := by
  induction L with
  | nil => rfl
  | cons v t ih =>
    have hv := h v (List.mem_cons_self v t)
    rcases hx : valNum v with _ | x
    · rw [hx] at hv; simp at hv
    · rw [List.filterMap_cons, hx]
      simp only [List.length_cons]
      rw [ih (fun w hw => h w (List.mem_cons_of_mem v hw))]

/-- In a well-formed frame, looking up a column whose name is listed among
the numeric dtype columns yields that numeric column, and its numeric
content is exactly its non-null content. -/
theorem wf_numeric_lookup (df : DF) (nm : String) (c : Col)
    (hwf : df.wfB = true)
    (hnm : nm ∈ (df.cols.filter (fun c => decide (c.dtype = Dtype.numeric))).map
      (fun c => c.name))
    (hfind : df.findCol nm = some c) :
    (numCells c).length = (nonNull c).length := by
  obtain ⟨hc_mem, hc_name⟩ := findCol_mem df nm c hfind
  obtain ⟨c2, hc2, hc2name⟩ := List.mem_map.mp hnm
  obtain ⟨hc2mem, hc2num⟩ := List.mem_filter.mp hc2
  simp only [DF.wfB, Bool.and_eq_true] at hwf
  have hinj := nodupB_name_inj df.cols hwf.1.2 c hc_mem c2 hc2mem
    (by rw [hc_name, hc2name])
  subst hinj
  have hnum : c.dtype = Dtype.numeric := by simpa using hc2num
  have htype : typeOKB c = true := by
    have := hwf.2
    rw [List.all_eq_true] at this
    exact this c hc_mem
  rw [typeOKB, hnum] at htype
  rw [List.all_eq_true] at htype
  exact filterMap_valNum_length (nonNull c) htype

/-- C7: every numeric column with a non-null value that the Statistics
handler analyses is reported with min at most mean at most max, and the
reported count is the number of non-null entries of that column. -/
theorem C7_stats_bounds (q : String) (df : DF) (m : List String) (nm : String) (r : StatRec)
    (hwf : df.wfB = true)
    (hmem : (nm, r) ∈ (handle_comprehensive_statistics q df m).analyzed) :
    r.smin ≤ r.mean ∧ r.mean ≤ r.smax
      ∧ ∃ c, df.findCol nm = some c ∧ r.count = (nonNull c).length := by
  unfold handle_comprehensive_statistics at hmem
  by_cases hempty :
      ((if (m.filter (fun nm => ((df.cols.filter (fun c => decide (c.dtype = Dtype.numeric))).map
          (fun c => c.name)).contains nm)).isEmpty
        then ((df.cols.filter (fun c => decide (c.dtype = Dtype.numeric))).map
          (fun c => c.name)).take 5
        else m.filter (fun nm => ((df.cols.filter (fun c => decide (c.dtype = Dtype.numeric))).map
          (fun c => c.name)).contains nm)).isEmpty) = true
  · rw [if_pos hempty] at hmem
    simp at hmem
  · rw [if_neg hempty] at hmem
    obtain ⟨nm', hnm', hf⟩ := List.mem_filterMap.mp hmem
    rcases hfind : df.findCol nm' with _ | c
    · rw [hfind] at hf; simp at hf
    · rw [hfind] at hf
      simp only [Option.some_bind] at hf
      rcases hdesc : describeStats (numCells c) with _ | r0
      · rw [hdesc] at hf; simp at hf
      · rw [hdesc] at hf
        simp only [Option.map_some', Option.some.injEq, Prod.mk.injEq] at hf
        have hnum : nm' ∈ (df.cols.filter (fun c => decide (c.dtype = Dtype.numeric))).map
            (fun c => c.name) := by
          by_cases hfm :
              ((m.filter (fun nm => ((df.cols.filter
                (fun c => decide (c.dtype = Dtype.numeric))).map
                  (fun c => c.name)).contains nm)).isEmpty) = true
          · rw [if_pos hfm] at hnm'
            exact List.mem_of_mem_take hnm'
          · rw [if_neg hfm] at hnm'
            have := List.mem_filter.mp hnm'
            exact (strListContains_iff _ _).mp this.2
        have hspec := describeStats_spec (numCells c) r0 hdesc
        have hlen := wf_numeric_lookup df nm' c hwf hnum hfind
        obtain ⟨h1, h2⟩ := hf
        refine ⟨?_, ?_, c, ?_, ?_⟩
        · rw [← h2]; exact hspec.1
        · rw [← h2]; exact hspec.2.1
        · rw [← h1]; exact hfind
        · rw [← h2, hspec.2.2, hlen]

/-- C3 (amended): whenever the Count handler (mentioned-column branch) or
the Comparison handler renders a full value-count breakdown of a column,
the printed percentages sum to 100 times the non-null fraction of that
column, because counts are taken over non-null values while the
denominator is the total record count.  The sum is 100 exactly when the
column has no nulls. -/
theorem C3_pct_sums (q : String) (df : DF) (m : List String) :
    (∀ nm entries,
      CountItem.breakdown nm entries ∈ (handle_comprehensive_count q df m).mentionedItems →
      ∃ c, df.findCol nm = some c ∧
        ((entries.map (fun e => e.pct)).sum
          = ((nonNull c).length : ℚ) / (df.nrows : ℚ) * 100))
    ∧ (∀ items nm entries,
        handle_comprehensive_comparison q df m = CompResp.cat items →
        (nm, entries) ∈ items →
        ∃ c, df.findCol nm = some c ∧
          ((entries.map (fun e => e.pct)).sum
            = ((nonNull c).length : ℚ) / (df.nrows : ℚ) * 100)) := by
  constructor
  · intro nm entries hmem
    simp only [handle_comprehensive_count] at hmem
    obtain ⟨nm', hnm', hf⟩ := List.mem_filterMap.mp hmem
    rcases hfind : df.findCol nm' with _ | c
    · rw [hfind] at hf; simp at hf
    · rw [hfind] at hf
      simp only [Option.some_bind] at hf
      split_ifs at hf with hu h1 h2 <;> simp at hf
      obtain ⟨hA, hB⟩ := hf
      refine ⟨c, ?_, ?_⟩
      · rw [← hA]; exact hfind
      · rw [← hB]; exact entriesOfAll_pct_sum (nonNull c) df.nrows
  · intro items nm entries hEq hmem
    unfold handle_comprehensive_comparison at hEq
    by_cases hsel : (compSel df m).isEmpty = true
    · rw [if_pos hsel] at hEq
      simp at hEq
    · rw [if_neg hsel] at hEq
      simp only [CompResp.cat.injEq] at hEq
      rw [← hEq] at hmem
      unfold compCatItems at hmem
      obtain ⟨nm', hnm', hf⟩ := List.mem_filterMap.mp hmem
      rcases hfind : df.findCol nm' with _ | c
      · rw [hfind] at hf; simp at hf
      · rw [hfind] at hf
        simp only [Option.some_bind] at hf
        split_ifs at hf with h1
        simp at hf
        obtain ⟨hA, hB⟩ := hf
        refine ⟨c, ?_, ?_⟩
        · rw [← hA]; exact hfind
        · rw [← hB]; exact entriesOfAll_pct_sum (nonNull c) df.nrows

/-- A one-column table with a null entry: one non-null value out of two
records. -/
def df3 : DF := ⟨[⟨"status", Dtype.object, [some (Value.str "a"), none]⟩]⟩

/-- C3 counterexample: on a two-row table whose status column is null in
one row, the query how many status renders a full breakdown (one value,
well under the display cap of 20) whose single percentage is 50, so the
printed percentages sum to 50 and not to 100: the claim fails whenever the
column has nulls, because the denominator is the total record count. -/
theorem C3_counterexample :
    detect_question_type "how many status" = "count"
    ∧ strictMentioned "how many status" df3.colNames = ["status"]
    ∧ (handle_comprehensive_count "how many status" df3 ["status"]).mentionedItems
        = [CountItem.breakdown "status" (entriesOfAll [Value.str "a"] 2)]
    ∧ ((entriesOfAll [Value.str "a"] 2).map (fun e => e.pct)).sum = 50
    ∧ ¬ ((entriesOfAll [Value.str "a"] 2).map (fun e => e.pct)).sum = 100 := by
  refine ⟨by decide, by decide, rfl, ?_, ?_⟩
  · rw [entriesOfAll_pct_sum]
    norm_num
  · rw [entriesOfAll_pct_sum]
    norm_num

/-- A one-column table with no nulls, for the witness of the amended C3. -/
def dfW3 : DF := ⟨[⟨"status", Dtype.object, [some (Value.str "a"), some (Value.str "b")]⟩]⟩

/-- C3 witness: the amended sum formula applied to a concrete breakdown
(no nulls, so the formula gives exactly 100). -/
theorem C3_pct_sums_witness :
    (∃ c, dfW3.findCol "status" = some c ∧
      (((entriesOfAll [Value.str "a", Value.str "b"] 2).map (fun e => e.pct)).sum
        = ((nonNull c).length : ℚ) / (dfW3.nrows : ℚ) * 100))
    ∧ ((entriesOfAll [Value.str "a", Value.str "b"] 2).map (fun e => e.pct)).sum = 100 := by
  constructor
  · exact (C3_pct_sums "how many status" dfW3 ["status"]).1 "status"
      (entriesOfAll [Value.str "a", Value.str "b"] 2)
      (by rw [show (handle_comprehensive_count "how many status" dfW3 ["status"]).mentionedItems
            = [CountItem.breakdown "status" (entriesOfAll [Value.str "a", Value.str "b"] 2)]
          from rfl]
          exact List.mem_singleton.mpr rfl)
  · rw [entriesOfAll_pct_sum]
    norm_num

/-- The table of the C6 scenario: columns id and amount, amount holding
10, 20 and a null. -/
def dfAmount : DF :=
  ⟨[⟨"id", Dtype.numeric, [some (Value.num 1), some (Value.num 2), some (Value.num 3)]⟩,
    ⟨"amount", Dtype.numeric, [some (Value.num 10), some (Value.num 20), none]⟩]⟩

/-- The describe record for the two non-null amount values. -/
def rAmount : StatRec := (describeStats [(10 : ℚ), (20 : ℚ)]).getD ⟨0, 0, 0, 0, 0, none⟩

/-- C6: the query average amount is classified statistics, the extractor
references exactly the amount column, and the handler reports for amount a
mean of 15 (printed 15.00) computed from the 2 non-null values, unaffected
by the null. -/
theorem C6_stats_ignore_null :
    detect_question_type "average amount" = "statistics"
    ∧ strictMentioned "average amount" dfAmount.colNames = ["amount"]
    ∧ (handle_comprehensive_statistics "average amount" dfAmount ["amount"]).analyzed
        = [("amount", rAmount)]
    ∧ rAmount.mean = 15
    ∧ rAmount.count = 2 := by
  refine ⟨by decide, by decide, rfl, ?_, ?_⟩
  · show ((describeStats [(10 : ℚ), (20 : ℚ)]).getD ⟨0, 0, 0, 0, 0, none⟩).mean = 15
    simp only [describeStats, Option.getD_some]
    norm_num
  · rfl

/-- C7 witness: the bounds theorem applied to the amount column of the
concrete table. -/
theorem C7_stats_bounds_witness :
    rAmount.smin ≤ rAmount.mean ∧ rAmount.mean ≤ rAmount.smax
      ∧ ∃ c, dfAmount.findCol "amount" = some c ∧ rAmount.count = (nonNull c).length :=
  C7_stats_bounds "average amount" dfAmount ["amount"] "amount" rAmount
    (by decide)
    (by rw [show (handle_comprehensive_statistics "average amount" dfAmount
          ["amount"]).analyzed = [("amount", rAmount)] from rfl]
        exact List.mem_singleton.mpr rfl)

/-! ## Search handler -/

def stopWords : List String :=
  ["the", "a", "an", "and", "or", "but", "in", "on", "at", "to", "for", "of", "with",
   "by", "from", "is", "are", "was", "were", "be", "been", "being", "have", "has",
   "had", "do", "does", "did", "will", "would", "should", "could", "may", "might",
   "must", "can", "find", "show", "search", "get", "display"]

/-- Maximal runs of word characters (re.findall of backslash-b word
backslash-b), accumulating the current run reversed. -/
def tokensGo : List Char → List Char → List String
  | [], cur => if cur.isEmpty then [] else [⟨cur.reverse⟩]
  | c :: t, cur =>
      if wordCharB c then tokensGo t (c :: cur)
      else if cur.isEmpty then tokensGo t [] else ⟨cur.reverse⟩ :: tokensGo t []

def wordTokens (s : String) : List String := tokensGo s.data []

example : wordTokens "find high, severity!" = ["find", "high", "severity"] := by decide

/-- Keep the first occurrence of each full row (drop_duplicates over all
columns). -/
def dedupRows (l : List (List (Option Value))) : List (List (Option Value)) :=
  l.foldl (fun acc r => if acc.any (fun r2 => decide (r2 = r)) then acc else acc ++ [r]) []

/-- Information content of the Search response: the usage hint when no
search term survives the stop-word and length filters, otherwise the match
count with up to ten sample rows, or the no-match message with the terms. -/
inductive SearchResp where
  | usage
  | found (total : Nat) (sample : List (List (Option Value)))
  | noMatch (terms : List String)
deriving DecidableEq

/-- handle_comprehensive_search of the source, lines 496 to 600: terms are
lowercase word tokens minus stop words and tokens of length at most two;
every object column is scanned for any term as a case-insensitive
substring (str of a null cell is the text nan); matching rows are
concatenated column by column and deduplicated over full row content. -/
def handle_comprehensive_search (q : String) (df : DF) : SearchResp :=
  let terms := (wordTokens (pyLower q)).filter
    (fun t => !(stopWords.contains t) && 2 < t.length)
  if terms.isEmpty then SearchResp.usage
  else
    let textCols := df.cols.filter (fun c => decide (c.dtype = Dtype.object))
    let rows := textCols.foldl
      (fun acc c =>
        let idxs := (List.range df.nrows).filter (fun i =>
          let cs := pyLower (match c.cells.getD i none with
            | none => "nan"
            | some v => valStr v)
          terms.any (fun t => strContains cs t))
        acc ++ idxs.map (fun i => df.getRow i)) []
    let ded := dedupRows rows
    if ded.isEmpty then SearchResp.noMatch terms
    else SearchResp.found ded.length (ded.take 10)

/-! ## Filter handler -/

/-- Information content of the Filter response: either the applied filter
list together with the row labels that survive every filter, or the
delegated Search response when no filter was applied. -/
inductive FilterResp where
  | filtered (applied : List Filt) (rows : List Nat)
  | delegated (r : SearchResp)
deriving DecidableEq

/-- The categorical pass of handle_comprehensive_filter (lines 611 to 645):
for each column whose lower-cased name occurs as a whole word in the
query, apply the first status value that occurs as a whole word and whose
mask on the full table is non-empty; masks are intersected with the rows
kept so far (pandas aligns the full-table mask on the filtered labels). -/
def catPass (q : String) (df : DF) : List String → List Nat × List Filt → List Nat × List Filt
  | [], st => st
  | col :: rest, (kept, applied) =>
      if reWordSearch (pyLower col) q then
        match firstCatVal q df col statusVocab with
        | some (v, rws) =>
            catPass q df rest (interRows kept rws, applied ++ [Filt.catEq col v])
        | none => catPass q df rest (kept, applied)
      else catPass q df rest (kept, applied)

/-- The numeric pass of handle_comprehensive_filter (lines 647 to 683):
for each numeric column named as a whole word in the query, on a
greater-than or less-than cue take the first numeric literal of the whole
query as threshold; the first successfully applied numeric filter breaks
out of the loop entirely, so at most one numeric filter is applied. -/
def numPass (q : String) (df : DF) : List String → List Nat × List Filt → List Nat × List Filt
  | [], st => st
  | col :: rest, (kept, applied) =>
      if reWordSearch (pyLower col) q then
        if strContains q "greater than" || strContains q "more than" || strContains q ">" then
          match firstNumber q with
          | some t =>
              let rws := rowsOfF df (.numGt col t)
              if rws.isEmpty then numPass q df rest (kept, applied)
              else (interRows kept rws, applied ++ [Filt.numGt col t])
          | none => numPass q df rest (kept, applied)
        else if strContains q "less than" || strContains q "smaller than"
            || strContains q "<" then
          match firstNumber q with
          | some t =>
              let rws := rowsOfF df (.numLt col t)
              if rws.isEmpty then numPass q df rest (kept, applied)
              else (interRows kept rws, applied ++ [Filt.numLt col t])
          | none => numPass q df rest (kept, applied)
        else numPass q df rest (kept, applied)
      else numPass q df rest (kept, applied)

/-- handle_comprehensive_filter of the source, lines 603 to 705: run the
categorical pass over all columns, then the numeric pass over the numeric
columns, and delegate to Search when no filter was applied. -/
def handle_comprehensive_filter (q : String) (df : DF) : FilterResp :=
  let st1 := catPass q df df.colNames (List.range df.nrows, [])
  let numericNames := (df.cols.filter (fun c => decide (c.dtype = Dtype.numeric))).map
    (fun c => c.name)
  let st2 := numPass q df numericNames st1
  if st2.2.isEmpty then FilterResp.delegated (handle_comprehensive_search q df)
  else FilterResp.filtered st2.2 st2.1

/-! ## C9: constraints applied by the Filter handler -/

theorem firstCatVal_spec (q : String) (df : DF) (col : String) :
    ∀ (vocab : List String) (v : String) (rws : List Nat),
      firstCatVal q df col vocab = some (v, rws) →
      rws = rowsOfF df (.catEq col v) ∧ rws ≠ [] := by
  intro vocab
  induction vocab with
  | nil => intro v rws h; simp [firstCatVal] at h
  | cons w ws ih =>
    intro v rws h
    simp only [firstCatVal] at h
    split_ifs at h with hw he
    · exact ih v rws h
    · simp only [Option.some.injEq, Prod.mk.injEq] at h
      obtain ⟨rfl, rfl⟩ := h
      exact ⟨rfl, by simpa [List.isEmpty_iff] using he⟩
    · exact ih v rws h

/-- The running intersection of the full-table masks of the applied
filters, starting from all row labels. -/
def foldInter (df : DF) (applied : List Filt) (init : List Nat) : List Nat :=
  applied.foldl (fun acc f => interRows acc (rowsOfF df f)) init

theorem foldInter_concat (df : DF) (applied : List Filt) (f : Filt) (init : List Nat) :
    foldInter df (applied ++ [f]) init = interRows (foldInter df applied init) (rowsOfF df f) := by
  unfold foldInter
  rw [List.foldl_append]
  rfl

theorem catPass_inv (q : String) (df : DF) :
    ∀ (cols : List String) (kept : List Nat) (applied : List Filt),
      (∀ f ∈ applied, rowsOfF df f ≠ []) →
      kept = foldInter df applied (List.range df.nrows) →
      (∀ f ∈ (catPass q df cols (kept, applied)).2, rowsOfF df f ≠ [])
        ∧ (catPass q df cols (kept, applied)).1
          = foldInter df (catPass q df cols (kept, applied)).2 (List.range df.nrows) := by
  intro cols
  induction cols with
  | nil => intro kept applied h1 h2; exact ⟨h1, h2⟩
  | cons col rest ih =>
    intro kept applied h1 h2
    simp only [catPass]
    split_ifs with hw
    · rcases hfc : firstCatVal q df col statusVocab with _ | pr
      · exact ih kept applied h1 h2
      · obtain ⟨v, rws⟩ := pr
        obtain ⟨hrw, hne⟩ := firstCatVal_spec q df col statusVocab v rws hfc
        refine ih _ _ ?_ ?_
        · intro f hf
          rcases List.mem_append.mp hf with hf | hf
          · exact h1 f hf
          · rcases List.mem_singleton.mp hf with rfl
            rw [← hrw]; exact hne
        · rw [foldInter_concat, ← h2, hrw]
    · exact ih kept applied h1 h2

theorem numPass_inv (q : String) (df : DF) :
    ∀ (cols : List String) (kept : List Nat) (applied : List Filt),
      (∀ f ∈ applied, rowsOfF df f ≠ []) →
      kept = foldInter df applied (List.range df.nrows) →
      (∀ f ∈ (numPass q df cols (kept, applied)).2, rowsOfF df f ≠ [])
        ∧ (numPass q df cols (kept, applied)).1
          = foldInter df (numPass q df cols (kept, applied)).2 (List.range df.nrows) := by
  intro cols
  induction cols with
  | nil => intro kept applied h1 h2; exact ⟨h1, h2⟩
  | cons col rest ih =>
    intro kept applied h1 h2
    simp only [numPass]
    by_cases hw : reWordSearch (pyLower col) q = true
    · rw [if_pos hw]
      by_cases hgt : (strContains q "greater than" || strContains q "more than"
          || strContains q ">") = true
      · rw [if_pos hgt]
        split
        · split_ifs with he
          · exact ih kept applied h1 h2
          · constructor
            · intro f hf
              rcases List.mem_append.mp hf with hf | hf
              · exact h1 f hf
              · rcases List.mem_singleton.mp hf with rfl
                simpa [List.isEmpty_iff] using he
            · rw [foldInter_concat, ← h2]
        · exact ih kept applied h1 h2
      · rw [if_neg hgt]
        by_cases hlt : (strContains q "less than" || strContains q "smaller than"
            || strContains q "<") = true
        · rw [if_pos hlt]
          split
          · split_ifs with he
            · exact ih kept applied h1 h2
            · constructor
              · intro f hf
                rcases List.mem_append.mp hf with hf | hf
                · exact h1 f hf
                · rcases List.mem_singleton.mp hf with rfl
                  simpa [List.isEmpty_iff] using he
              · rw [foldInter_concat, ← h2]
          · exact ih kept applied h1 h2
        · rw [if_neg hlt]; exact ih kept applied h1 h2
    · rw [if_neg hw]; exact ih kept applied h1 h2

theorem rowsOfF_lt (df : DF) (f : Filt) (hwf : df.wfB = true) :
    ∀ i ∈ rowsOfF df f, i < df.nrows := by
  have hlen : ∀ c ∈ df.cols, c.cells.length = df.nrows := by
    intro c hc
    simp only [DF.wfB, Bool.and_eq_true, List.all_eq_true] at hwf
    simpa using hwf.1.1 c hc
  intro i hi
  rcases f with ⟨col, val⟩ | ⟨col, t⟩ | ⟨col, t⟩ <;>
  · simp only [rowsOfF] at hi
    rcases hfind : df.findCol col with _ | c
    · rw [hfind] at hi; cases hi
    · rw [hfind] at hi
      have := List.mem_filter.mp hi
      have hr := List.mem_range.mp this.1
      rw [hlen c (findCol_mem df col c hfind).1] at hr
      exact hr

theorem natListContains_iff (l : List Nat) (n : Nat) :
    l.contains n = true ↔ n ∈ l := by
  induction l with
  | nil => simp
  | cons a t ih =>
    simp only [List.contains_cons, Bool.or_eq_true, beq_iff_eq, List.mem_cons, ih]

/-- C9 (amended): every filter the Filter handler reports as applied has a
non-empty mask on the full table (a detected constraint matching zero rows
is silently dropped, and if nothing is applied the handler delegates to
Search, so a filtered response always lists at least one filter); when
exactly one filter is applied the surviving row set is non-empty, but with
two or more filters the intersection can be empty, so the reported
filtered record count can be zero. -/
theorem C9_filter_constraints (q : String) (df : DF) (applied : List Filt) (rows : List Nat)
    (hwf : df.wfB = true)
    (hres : handle_comprehensive_filter q df = FilterResp.filtered applied rows) :
    applied ≠ []
      ∧ (∀ f ∈ applied, rowsOfF df f ≠ [])
      ∧ (applied.length = 1 → rows ≠ []) := by
  unfold handle_comprehensive_filter at hres
  by_cases hemp :
      ((numPass q df ((df.cols.filter (fun c => decide (c.dtype = Dtype.numeric))).map
          (fun c => c.name))
        (catPass q df df.colNames (List.range df.nrows, []))).2).isEmpty = true
  · rw [if_pos hemp] at hres
    simp at hres
  · rw [if_neg hemp] at hres
    simp only [FilterResp.filtered.injEq] at hres
    obtain ⟨hA, hR⟩ := hres
    have hinit1 : ∀ f ∈ ([] : List Filt), rowsOfF df f ≠ [] := by intro f hf; cases hf
    have hinit2 : List.range df.nrows = foldInter df [] (List.range df.nrows) := rfl
    have hcat := catPass_inv q df df.colNames (List.range df.nrows) [] hinit1 hinit2
    have hnum :
        (∀ f ∈ (numPass q df ((df.cols.filter (fun c => decide (c.dtype = Dtype.numeric))).map
            (fun c => c.name))
          (catPass q df df.colNames (List.range df.nrows, []))).2, rowsOfF df f ≠ [])
        ∧ (numPass q df ((df.cols.filter (fun c => decide (c.dtype = Dtype.numeric))).map
            (fun c => c.name))
          (catPass q df df.colNames (List.range df.nrows, []))).1
          = foldInter df
            (numPass q df ((df.cols.filter (fun c => decide (c.dtype = Dtype.numeric))).map
              (fun c => c.name))
            (catPass q df df.colNames (List.range df.nrows, []))).2
            (List.range df.nrows) :=
      numPass_inv q df _ _ _ hcat.1 hcat.2
    rw [hA] at hnum
    have happlied : applied ≠ [] := by
      intro hnil
      rw [hA, hnil] at hemp
      exact hemp rfl
    refine ⟨happlied, hnum.1, ?_⟩
    intro hlen1
    obtain ⟨f, rfl⟩ := List.length_eq_one.mp hlen1
    have hfk : rowsOfF df f ≠ [] := hnum.1 f (List.mem_singleton.mpr rfl)
    obtain ⟨i, hi⟩ := List.exists_mem_of_ne_nil _ hfk
    have hilt : i < df.nrows := rowsOfF_lt df f hwf i hi
    have hrows : rows = interRows (List.range df.nrows) (rowsOfF df f) := by
      rw [← hR, hnum.2]
      rfl
    have himem : i ∈ rows := by
      rw [hrows]
      exact List.mem_filter.mpr
        ⟨List.mem_range.mpr hilt, (natListContains_iff _ _).mpr hi⟩
    exact List.ne_nil_of_mem himem

/-- Two object columns arranged so that each of two filters matches a row
but no row matches both. -/
def df9 : DF :=
  ⟨[⟨"status", Dtype.object, [some (Value.str "high"), some (Value.str "x")]⟩,
    ⟨"priority", Dtype.object, [some (Value.str "x"), some (Value.str "high")]⟩]⟩

/-- C9 counterexample: the query names both columns and the value high;
each column picks up the filter value high (individually satisfied by one
row), but the two masks intersect to nothing, so the response lists two
applied filters while the filtered record count is zero.  The claim that a
response listing applied filters reports at least one record is false,
because every mask is tested against the full table, not against the rows
already kept. -/
theorem C9_counterexample :
    handle_comprehensive_filter "status priority high" df9
      = FilterResp.filtered [Filt.catEq "status" "high", Filt.catEq "priority" "high"] []
    ∧ [Filt.catEq "status" "high", Filt.catEq "priority" "high"] ≠ ([] : List Filt) := by
  constructor
  · decide
  · decide

/-- A single-column table on which exactly one filter applies. -/
def dfW9 : DF :=
  ⟨[⟨"status", Dtype.object, [some (Value.str "high"), some (Value.str "low")]⟩]⟩

/-- C9 witness: the amended theorem applied to a query that triggers
exactly one filter; the lone filter has a non-empty mask and the filtered
row set is non-empty. -/
theorem C9_filter_constraints_witness :
    [Filt.catEq "status" "high"] ≠ ([] : List Filt)
      ∧ (∀ f ∈ [Filt.catEq "status" "high"], rowsOfF dfW9 f ≠ [])
      ∧ (([Filt.catEq "status" "high"] : List Filt).length = 1 → ([0] : List Nat) ≠ []) :=
  C9_filter_constraints "status high" dfW9 [Filt.catEq "status" "high"] [0]
    (by decide) (by decide)

/-! ## Trend handler -/

def dateKeywords : List String := ["date", "time", "timestamp", "created", "updated"]

/-- pd.to_datetime on one cell with errors coerce: dates stay, ISO
year-month-day strings parse, everything else (including the numeric cells
this program never routes here) becomes NaT.  The parser models the ISO
subset of the formats pandas accepts, which covers the dates this
repository handles. -/
def parseDateISO (s : String) : Option (Nat × Nat × Nat) :=
  match s.data with
  | [y1, y2, y3, y4, '-', m1, m2, '-', d1, d2] =>
      if (y1.isDigit && y2.isDigit && y3.isDigit && y4.isDigit
          && m1.isDigit && m2.isDigit && d1.isDigit && d2.isDigit) then
        let y := digitsToNat [y1, y2, y3, y4]
        let mo := digitsToNat [m1, m2]
        let d := digitsToNat [d1, d2]
        if 1 ≤ mo && mo ≤ 12 && 1 ≤ d && d ≤ 31 then some (y, mo, d) else none
      else none
  | _ => none

def coerceVal : Option Value → Option Value
  | some (Value.date y m d) => some (Value.date y m d)
  | some (Value.str s) => (parseDateISO s).map (fun t => Value.date t.1 t.2.1 t.2.2)
  | _ => none

/-- The in-place assignment df[date_col] = pd.to_datetime(df[date_col],
errors=coerce): every column carrying the name is replaced by its coerced
datetime version. -/
def coerceCol (df : DF) (nm : String) : DF :=
  ⟨df.cols.map (fun c =>
    if c.name == nm then ⟨c.name, Dtype.datetime, c.cells.map coerceVal⟩ else c)⟩

/-- Date-column detection by name: the lower-cased column name contains
one of the date keywords. -/
def findDateColsByName (names : List String) : List String :=
  names.filter (fun nm => dateKeywords.any (fun k => strContains (pyLower nm) k))

/-- Date-column detection by content: pd.to_datetime with errors raise on
the first ten values succeeds when every one of them is null or parses. -/
def parseableCell (c : Option Value) : Bool :=
  match c with
  | none => true
  | some (Value.date _ _ _) => true
  | some (Value.str s) => (parseDateISO s).isSome
  | some (Value.num _) => false

def contentDateCols (df : DF) : List String :=
  (df.cols.filter (fun c => (c.cells.take 10).all parseableCell)).map (fun c => c.name)

/-- Ascending order on dates, lexicographic on year, month, day. -/
def dleTriple (x y : Nat × Nat × Nat) : Bool :=
  decide (x.1 < y.1) || (x.1 == y.1
    && (decide (x.2.1 < y.2.1) || (x.2.1 == y.2.1 && decide (x.2.2 ≤ y.2.2))))

/-- Sort key order with NaT last (na_position last in sort_values). -/
def dleOpt : Option (Nat × Nat × Nat) → Option (Nat × Nat × Nat) → Bool
  | _, none => true
  | none, some _ => false
  | some x, some y => dleTriple x y

def pleB (x y : Nat × Nat) : Bool :=
  decide (x.1 < y.1) || (x.1 == y.1 && decide (x.2 ≤ y.2))

/-- The parsed dates of a column, in row order, nulls skipped. -/
def dateCellsOf (df : DF) (nm : String) : List (Nat × Nat × Nat) :=
  match df.findCol nm with
  | none => []
  | some c => (nonNull c).filterMap (fun v =>
      match v with
      | Value.date y m d => some (y, m, d)
      | _ => none)

def minDateL (l : List (Nat × Nat × Nat)) : Option (Nat × Nat × Nat) :=
  l.foldl (fun acc t =>
    match acc with
    | none => some t
    | some u => if dleTriple t u then some t else some u) none

def maxDateL (l : List (Nat × Nat × Nat)) : Option (Nat × Nat × Nat) :=
  l.foldl (fun acc t =>
    match acc with
    | none => some t
    | some u => if dleTriple u t then some t else some u) none

/-- Information content of the Trend response: the no-date message, the
ten most recent or ten oldest rows (in date order, coerced values shown),
or the date range with total count and per-month counts for the last six
months present. -/
inductive TrendResp where
  | noDate
  | recent (rows : List (List (Option Value)))
  | oldest (rows : List (List (Option Value)))
  | range (dmin dmax : Option (Nat × Nat × Nat)) (total : Nat)
      (periods : List ((Nat × Nat) × Nat))
deriving DecidableEq

/-- handle_comprehensive_trend of the source, lines 745 to 810: pick the
first date-like column (by name keyword, else by content), coerce it in
place on the table it was given, sort rows by it with NaT last, and
produce the branch selected by the query wording.  Returns the response
together with the table as the handler leaves it: this is the one handler
that writes into its input. -/
def handle_comprehensive_trend (q : String) (df : DF) : TrendResp × DF :=
  let nameCols := findDateColsByName df.colNames
  let dateCols := if nameCols.isEmpty then contentDateCols df else nameCols
  match dateCols with
  | [] => (TrendResp.noDate, df)
  | dc :: _ =>
      let df1 := coerceCol df dc
      let key : Nat → Option (Nat × Nat × Nat) := fun i =>
        match df1.findCol dc with
        | none => none
        | some c =>
            match c.cells.getD i none with
            | some (Value.date y m d) => some (y, m, d)
            | _ => none
      let sortedIdx := List.insertionSort (fun i j => dleOpt (key i) (key j) = true)
        (List.range df1.nrows)
      if strContains q "recent" || strContains q "latest" || strContains q "newest" then
        (TrendResp.recent ((sortedIdx.drop (sortedIdx.length - 10)).map
          (fun i => df1.getRow i)), df1)
      else if strContains q "oldest" || strContains q "earliest" then
        (TrendResp.oldest ((sortedIdx.take 10).map (fun i => df1.getRow i)), df1)
      else
        let dates := dateCellsOf df1 dc
        let periods := vcAux (dates.map (fun t => (t.1, t.2.1))).length
          (dates.map (fun t => (t.1, t.2.1)))
        let periodsAsc := List.insertionSort (fun a b => pleB a.1 b.1 = true) periods
        (TrendResp.range (minDateL dates) (maxDateL dates) df1.nrows
          (periodsAsc.drop (periodsAsc.length - 6)), df1)

/-! ## Value, List, Summary and Fallback handlers -/

/-- One column section of the Value response: either the full distinct
value list capped at 15 shown, or just the distinct count with 10 samples
when over 20 distinct values exist. -/
inductive ValueItem where
  | short (col : String) (vals : List Value) (more : Nat)
  | long (col : String) (n : Nat) (sample : List Value)
deriving DecidableEq

/-- Information content of the Value response.  The source falls back to
Search when the accumulated response is still essentially the bare header
(the string test response contains value and has fewer than five lines),
which happens exactly when no mentioned column produced a section. -/
inductive ValueResp where
  | vals (items : List ValueItem)
  | fellBack (r : SearchResp)
deriving DecidableEq

/-- handle_value_query of the source, lines 813 to 843. -/
def handle_value_query (q : String) (df : DF) : ValueResp :=
  let items := df.colNames.filterMap (fun col =>
    if reWordSearch (pyLower col) q then
      (df.findCol col).bind (fun c =>
        let uv := distinctL (nonNull c)
        if uv.isEmpty then none
        else if uv.length ≤ 20 then
          some (ValueItem.short col (uv.take 15) (uv.length - 15))
        else some (ValueItem.long col uv.length (uv.take 10)))
    else none)
  if items.isEmpty then ValueResp.fellBack (handle_comprehensive_search q df)
  else ValueResp.vals items

/-- Information content of the List response: total count, the first 20
rows, and the overflow count. -/
structure ListResp where
  total : Nat
  rows : List (List (Option Value))
  overflow : Nat
deriving DecidableEq

/-- handle_list_query of the source, lines 846 to 864. -/
def handle_list_query (df : DF) : ListResp :=
  { total := df.nrows
    rows := ((List.range df.nrows).take 20).map (fun i => df.getRow i)
    overflow := df.nrows - 20 }

/-- Per-column line of the Summary response: dtype, non-null count,
distinct count, and the provenance hint shown when over half the values
are null and several sources were combined. -/
structure ColSummary where
  name : String
  dtype : Dtype
  nonNullCt : Nat
  uniqueCt : Nat
  fromSecondary : Bool
deriving DecidableEq

/-- Information content of the Summary response. -/
structure SummaryResp where
  total : Nat
  ncols : Nat
  sources : List String
  colInfos : List ColSummary
  moreCols : Nat
  numStats : List (String × Option (ℚ × ℚ × ℚ))
  catDists : List (String × List (Value × Nat))
deriving DecidableEq

/-- Share of null cells of a column in the whole table, as the percentage
the source compares against 50. -/
def pctNull (df : DF) (c : Col) : ℚ :=
  ((c.cells.length - (nonNull c).length : Nat) : ℚ) / (df.nrows : ℚ) * 100

/-- handle_comprehensive_summary of the source, lines 867 to 913. -/
def handle_comprehensive_summary (df : DF) (data_sources : List String) : SummaryResp :=
  { total := df.nrows
    ncols := df.cols.length
    sources := if data_sources.length > 1 then data_sources else []
    colInfos := (df.cols.take 20).map (fun c =>
      { name := c.name
        dtype := c.dtype
        nonNullCt := (nonNull c).length
        uniqueCt := nuniqueL (nonNull c)
        fromSecondary := decide (50 < pctNull df c) && data_sources.length > 1 })
    moreCols := df.cols.length - 20
    numStats := ((df.cols.filter (fun c => decide (c.dtype = Dtype.numeric))).take 5).map
      (fun c => (c.name, numAgg c))
    catDists := ((df.cols.filter
        (fun c => decide (c.dtype = Dtype.object) && nuniqueL (nonNull c) ≤ 10)).take 3).map
      (fun c => (c.name, (sortedVC (nonNull c)).take 3)) }

/-- Per-column information of the fallback response: numeric min, max and
mean, or the five most frequent values. -/
inductive FallbackDetail where
  | numericAgg (agg : Option (ℚ × ℚ × ℚ))
  | topVals (vals : List (Value × Nat))
deriving DecidableEq

structure FallbackColInfo where
  name : String
  uniqueCt : Nat
  nonNullCt : Nat
  detail : FallbackDetail
deriving DecidableEq

/-- Information content of the general fallback: per-column summaries of
the permissively matched columns, or the static capability menu with the
first ten column names, overflow count, total records and sources. -/
inductive FallbackResp where
  | colInfo (items : List FallbackColInfo)
  | menu (cols : List String) (more : Nat) (total : Nat) (sources : List String)
deriving DecidableEq

/-- handle_intelligent_fallback of the source, lines 916 to 960: uses the
permissive substring extractor, not the whole-word one. -/
def handle_intelligent_fallback (q : String) (df : DF) (data_sources : List String) :
    FallbackResp :=
  let mentioned := fallbackMentioned q df.colNames
  if mentioned.isEmpty then
    FallbackResp.menu (df.colNames.take 10) (df.cols.length - 10) df.nrows
      (if data_sources.length > 1 then data_sources else [])
  else
    FallbackResp.colInfo ((mentioned.take 5).filterMap (fun col =>
      (df.findCol col).map (fun c =>
        { name := col
          uniqueCt := nuniqueL (nonNull c)
          nonNullCt := (nonNull c).length
          detail :=
            if decide (c.dtype = Dtype.numeric) then FallbackDetail.numericAgg (numAgg c)
            else FallbackDetail.topVals ((sortedVC (nonNull c)).take 5) })))

/-! ## Table combiner (generate_response lines 154 to 209) -/

/-- The contribution of one optional input table to all_data: nothing when
absent or empty, otherwise the table (appended as a copy; copies are the
value itself under value semantics, freshness is handled by the store
below). -/
def optToData : Option DF → List DF
  | none => []
  | some df => if df.pdEmpty then [] else [df]

def padTo (n : Nat) (cells : List (Option Value)) : List (Option Value) :=
  cells ++ List.replicate (n - cells.length) none

/-- pd.concat with ignore_index and sort False on two frames: the columns
of the first in order, then the new columns of the second; rows of the
first then of the second, absent columns filled with null; a column
present in both keeps its dtype when the dtypes agree and becomes object
otherwise (numeric columns absent from one side stay numeric with nulls). -/
def concat2 (a b : DF) : DF :=
  let names := a.colNames ++ (b.colNames.filter (fun nm => !(a.colNames.contains nm)))
  ⟨names.map (fun nm =>
    let ca := a.findCol nm
    let cb := b.findCol nm
    let cellsA := match ca with
      | some c => padTo a.nrows c.cells
      | none => List.replicate a.nrows none
    let cellsB := match cb with
      | some c => padTo b.nrows c.cells
      | none => List.replicate b.nrows none
    let dt := match ca, cb with
      | some c1, some c2 => if c1.dtype == c2.dtype then c1.dtype else Dtype.object
      | some c1, none => c1.dtype
      | none, some c2 => c2.dtype
      | none, none => Dtype.object
    ⟨nm, dt, cellsA ++ cellsB⟩)⟩

/-- The post-concat pass filling nulls of object columns with the empty
string. -/
def fillObjectNa (df : DF) : DF :=
  ⟨df.cols.map (fun c =>
    if c.dtype == Dtype.object then
      ⟨c.name, c.dtype, c.cells.map (fun cell =>
        match cell with
        | none => some (Value.str "")
        | some v => some v)⟩
    else c)⟩

/-- The Table Combiner: none when no input table is usable (the
NoDataAvailable condition), the single non-empty table unchanged, or the
outer concatenation of both. -/
def combineTables (p s : Option DF) : Option DF :=
  match optToData p ++ optToData s with
  | [] => none
  | [df] => some df
  | df1 :: df2 :: _ => some (fillObjectNa (concat2 df1 df2))

/-! ## The store: Python object identity for DataFrames -/

/-- Read a table from the store (out-of-range reads give an empty frame;
the programs under study never produce them). -/
def heapGet (h : List DF) (r : Nat) : DF := h.getD r ⟨[]⟩

/-- Write a table in place. -/
def heapSet (h : List DF) (r : Nat) (df : DF) : List DF := h.set r df

theorem getD_append_left {α : Type} (l m : List α) (r : Nat) (d : α)
    (hr : r < l.length) : (l ++ m).getD r d = l.getD r d := by
  induction l generalizing r with
  | nil => cases hr
  | cons a t ih =>
    cases r with
    | zero => rfl
    | succ n => exact ih n (Nat.lt_of_succ_lt_succ hr)

theorem getD_set_ne {α : Type} (l : List α) (i j : Nat) (a d : α) (hij : i ≠ j) :
    (l.set i a).getD j d = l.getD j d := by
  induction l generalizing i j with
  | nil => rfl
  | cons b t ih =>
    cases i with
    | zero =>
      cases j with
      | zero => exact absurd rfl hij
      | succ n => rfl
    | succ m =>
      cases j with
      | zero => rfl
      | succ n => exact ih m n (fun he => hij (by rw [he]))

/-! ## Dispatch: analyze_and_answer and generate_response -/

/-- The response of the engine as information content: the exact no-data
message, or the selected handler payload. -/
inductive Response where
  | noData (msg : String)
  | count (r : CountResp)
  | stats (r : StatsResp)
  | search (r : SearchResp)
  | filter (r : FilterResp)
  | comparison (r : CompResp)
  | trend (r : TrendResp)
  | value (r : ValueResp)
  | list (r : ListResp)
  | summary (r : SummaryResp)
  | fallback (r : FallbackResp)
deriving DecidableEq

/-- analyze_and_answer of the source, lines 224 to 275, over the store:
extract the referenced columns, classify, dispatch.  Every handler reads
the table; only the Trend handler writes its resulting table back (the
source line 768 assigns into df), which here is a store update.  The
unused role_hint parameter of the source selects no behaviour and is
dropped. -/
def analyze_and_answerH (q : String) (h : List DF) (r : Nat) (data_sources : List String) :
    List DF × Response :=
  let df := heapGet h r
  let mentioned := strictMentioned q df.colNames
  let t := detect_question_type q
  if t == "count" then (h, Response.count (handle_comprehensive_count q df mentioned))
  else if t == "statistics" then
    (h, Response.stats (handle_comprehensive_statistics q df mentioned))
  else if t == "search" then (h, Response.search (handle_comprehensive_search q df))
  else if t == "filter" then (h, Response.filter (handle_comprehensive_filter q df))
  else if t == "comparison" then
    (h, Response.comparison (handle_comprehensive_comparison q df mentioned))
  else if t == "trend" then
    let pr := handle_comprehensive_trend q df
    (heapSet h r pr.2, Response.trend pr.1)
  else if t == "value" then (h, Response.value (handle_value_query q df))
  else if t == "list" then (h, Response.list (handle_list_query df))
  else if t == "summary" then
    (h, Response.summary (handle_comprehensive_summary df data_sources))
  else (h, Response.fallback (handle_intelligent_fallback q df data_sources))

/-- The exact early-return message of generate_response line 177. -/
def noDataMessage : String :=
  "I don\x27t have access to any data right now. Please make sure data is loaded in the dashboard."

/-- generate_response of the source, lines 143 to 221, over the store: the
caller passes references to its tables; each contributing table is copied
(all_data appends df.copy()), so the combined working table is a fresh
store cell whether it is the single copy or the concatenation; the
lower-cased stripped query is then analyzed against that cell.  The
column provenance map feeds only narrative attribution and is dropped. -/
def generate_responseH (user_input : String) (h : List DF) (p s : Option Nat) :
    List DF × Response :=
  let pdf := p.map (fun r => heapGet h r)
  let sdf := s.map (fun r => heapGet h r)
  let srcs := (optToData pdf).map (fun _ => "main database")
    ++ (optToData sdf).map (fun _ => "unmatching uploaded data")
  match combineTables pdf sdf with
  | none => (h, Response.noData noDataMessage)
  | some cdf => analyze_and_answerH (pyStrip (pyLower user_input)) (h ++ [cdf]) h.length srcs

/-! ## C2: read-only handlers, except Trend -/

/-- A one-column table whose name-detected date column holds a parseable
date string. -/
def dfT : DF := ⟨[⟨"created", Dtype.object, [some (Value.str "2021-01-05")]⟩]⟩

/-- C2 counterexample: the query trend dispatches to the Trend handler,
which coerces the created column to datetime in place; after the handler
runs, the table object passed to it has changed (the text cell became a
parsed date and the column dtype became datetime64), so the claim that
every handler leaves its table unchanged is false. -/
theorem C2_counterexample :
    detect_question_type "trend" = "trend"
      ∧ heapGet (analyze_and_answerH "trend" [dfT] 0 ["main database"]).1 0 ≠ dfT := by
  constructor
  · decide
  · decide

/-- C2 (amended): every analytical handler except Trend is read-only with
respect to the table it is given: for any query whose detected intent is
not trend, dispatching leaves the store unchanged.  The Trend handler
alone writes into the table passed to it, as the counterexample shows. -/
theorem C2_read_only_except_trend (q : String) (h : List DF) (r : Nat)
    (srcs : List String) (hq : detect_question_type q ≠ "trend") :
    (analyze_and_answerH q h r srcs).1 = h := by
  simp only [analyze_and_answerH]
  split_ifs with h1 h2 h3 h4 h5 h6 h7 h8 h9 <;> try rfl
  exact absurd (by simpa using h6) hq

/-- C2 witness: a count query leaves the store untouched. -/
theorem C2_read_only_witness :
    (analyze_and_answerH "how many" [df3] 0 ["main database"]).1 = [df3] :=
  C2_read_only_except_trend "how many" [df3] 0 ["main database"] (by decide)

/-! ## C4: the NoDataAvailable early return -/

/-- C4: whenever the primary table is absent or empty and the secondary
table is absent or empty, generate_response returns the explanatory
no-data message, leaves the store untouched, and runs no handler. -/
theorem C4_no_data (q : String) (h : List DF) (p s : Option Nat)
    (hp : ∀ r, p = some r → (heapGet h r).pdEmpty = true)
    (hs : ∀ r, s = some r → (heapGet h r).pdEmpty = true) :
    generate_responseH q h p s = (h, Response.noData noDataMessage) := by
  have h1 : optToData (p.map (fun r => heapGet h r)) = [] := by
    cases p with
    | none => rfl
    | some r => simp [optToData, hp r rfl]
  have h2 : optToData (s.map (fun r => heapGet h r)) = [] := by
    cases s with
    | none => rfl
    | some r => simp [optToData, hs r rfl]
  have hc : combineTables (p.map (fun r => heapGet h r)) (s.map (fun r => heapGet h r))
      = none := by
    unfold combineTables
    rw [h1, h2]
    rfl
  simp only [generate_responseH]
  rw [hc]

/-- C4 witness: with no tables at all, any query gets the no-data
message. -/
theorem C4_no_data_witness :
    generate_responseH "how many incidents happened" [] none none
      = ([], Response.noData noDataMessage) :=
  C4_no_data "how many incidents happened" [] none none
    (fun _ hr => nomatch hr) (fun _ hr => nomatch hr)

/-! ## C8: the combiner is the identity on a lone non-empty table -/

/-- C8: combining a non-empty primary table with an absent or empty
secondary table yields the primary table unchanged: same columns, same
rows, same order. -/
theorem C8_combiner_identity (pdf : DF) (s : Option DF)
    (hp : pdf.pdEmpty = false)
    (hs : ∀ sdf, s = some sdf → sdf.pdEmpty = true) :
    combineTables (some pdf) s = some pdf := by
  have h2 : optToData s = [] := by
    cases s with
    | none => rfl
    | some sdf => simp [optToData, hs sdf rfl]
  unfold combineTables
  rw [h2]
  simp [optToData, hp]

def dfEmpty : DF := ⟨[]⟩

/-- C8 witness: a concrete two-row table combined with an empty secondary
table comes back unchanged. -/
theorem C8_combiner_identity_witness :
    combineTables (some df9) (some dfEmpty) = some df9 :=
  C8_combiner_identity df9 (some dfEmpty) (by decide)
    (fun sdf hsd => Option.some.inj hsd ▸ (by decide : dfEmpty.pdEmpty = true))

/-! ## C10: the caller tables survive every call -/

theorem analyzeH_heap_other (q : String) (hp : List DF) (rr r : Nat)
    (srcs : List String) (hne : r ≠ rr) :
    heapGet (analyze_and_answerH q hp rr srcs).1 r = heapGet hp r := by
  simp only [analyze_and_answerH]
  split_ifs with h1 h2 h3 h4 h5 h6 h7 h8 h9 <;> try rfl
  exact getD_set_ne hp rr r _ _ (fun he => hne he.symm)

/-- C10: generate_response copies the caller tables before combining (the
working table is a fresh store cell), so every pre-existing table in the
store, in particular the caller primary and secondary tables, is unchanged
after the call returns, even when the selected handler writes into its
working table as the Trend handler does. -/
theorem C10_caller_tables_preserved (q : String) (h : List DF) (p s : Option Nat)
    (r : Nat) (hr : r < h.length) :
    heapGet (generate_responseH q h p s).1 r = heapGet h r := by
  simp only [generate_responseH]
  rcases hc : combineTables (p.map (fun rr => heapGet h rr))
      (s.map (fun rr => heapGet h rr)) with _ | cdf
  · rfl
  · have hne : r ≠ h.length := Nat.ne_of_lt hr
    exact (analyzeH_heap_other _ _ _ _ _ hne).trans
      (getD_append_left h [cdf] r ⟨[]⟩ hr)

/-- C10 witness: a trend query that does mutate its working table leaves
the caller table in store cell zero untouched. -/
theorem C10_caller_tables_preserved_witness :
    heapGet (generate_responseH "trend" [dfT] (some 0) none).1 0 = heapGet [dfT] 0 :=
  C10_caller_tables_preserved "trend" [dfT] (some 0) none 0 (by decide)
